import Mathlib

/-!
Verification of the rendering core of the viol component library
(src/viol/core/base.py, attributes.py, events.py, element.py).

The Python code is shallowly embedded: attribute multi-dicts become
association lists with case-insensitive key comparison, the render
context becomes an explicit parent-linked chain, exceptions become
Option / Except results, and the regular-expression trigger rewrite
becomes an explicit character scan.  All definitions are executable.
-/

namespace Viol

/-- Python " ".join over a list of strings. -/
def joinSpace (l : List String) : String := String.intercalate " " l

/-- Splitter for Python str.strip().split(): accumulate the current token
(in reverse) and emit it at each whitespace run, dropping empty pieces. -/
def splitWSAux : List Char → List Char → List String
  | acc, [] => if acc = [] then [] else [String.mk acc.reverse]
  | acc, c :: cs =>
    if c.isWhitespace then
      if acc = [] then splitWSAux [] cs
      else String.mk acc.reverse :: splitWSAux [] cs
    else splitWSAux (c :: acc) cs

/-- Python str.strip().split(): split on whitespace runs, dropping empty
pieces.  Used by AttrMultiDict._validate_class (attributes.py). -/
def splitWS (s : String) : List String := splitWSAux [] s.data

/-- Deduplication keeping the first occurrence of each element.  Models the
conversion of a Python set built from a list back to a list in
AttrMultiDict._validate_class; CPython set iteration order is unspecified,
and no theorem below depends on the order chosen here, only on membership
and the absence of duplicates. -/
def dedupAux (seen : List String) : List String → List String
  | [] => []
  | x :: xs => if x ∈ seen then dedupAux seen xs else x :: dedupAux (x :: seen) xs

/-- Characters escaped by Python html.escape with quote=True, in escaped
form.  html.escape performs sequential str.replace calls starting with the
ampersand, which is equivalent to this single pass per character. -/
def escapeChar (c : Char) : List Char :=
  if c = '\x26' then ['\x26', 'a', 'm', 'p', ';']
  else if c = '\x3c' then ['\x26', 'l', 't', ';']
  else if c = '\x3e' then ['\x26', 'g', 't', ';']
  else if c = '\x22' then ['\x26', 'q', 'u', 'o', 't', ';']
  else if c = '\x27' then ['\x26', '#', 'x', '2', '7', ';']
  else [c]

/-- html.escape (quote=True) over a character list. -/
def escapeList : List Char → List Char
  | [] => []
  | c :: cs => escapeChar c ++ escapeList cs

/-- html.escape (quote=True), as used by AttrMultiDict.to_string and
Element.render. -/
def escape (s : String) : String := String.mk (escapeList s.data)

/-- HTML entity decoding restricted to the five entities that html.escape
emits (the restriction of html.unescape to strings produced by escape). -/
def unescapeList : List Char → List Char
  | [] => []
  | c :: cs =>
    if c = '\x26' then
      if cs.take 4 = ['a', 'm', 'p', ';'] then '\x26' :: unescapeList (cs.drop 4)
      else if cs.take 3 = ['l', 't', ';'] then '\x3c' :: unescapeList (cs.drop 3)
      else if cs.take 3 = ['g', 't', ';'] then '\x3e' :: unescapeList (cs.drop 3)
      else if cs.take 5 = ['q', 'u', 'o', 't', ';'] then '\x22' :: unescapeList (cs.drop 5)
      else if cs.take 5 = ['#', 'x', '2', '7', ';'] then '\x27' :: unescapeList (cs.drop 5)
      else c :: unescapeList cs
    else c :: unescapeList cs
  termination_by l => l.length
  decreasing_by all_goals simp_arith [List.length_drop]

/-- HTML entity decoding on strings. -/
def unescape (s : String) : String := String.mk (unescapeList s.data)

/-- A character list is in properly escaped form for an HTML attribute
context: it contains no raw angle brackets or double quotes, and every
ampersand starts one of the five entities produced by html.escape. -/
def entityHead (cs : List Char) : Bool :=
  cs.take 4 = ['a', 'm', 'p', ';'] || cs.take 3 = ['l', 't', ';'] ||
  cs.take 3 = ['g', 't', ';'] || cs.take 5 = ['q', 'u', 'o', 't', ';'] ||
  cs.take 5 = ['#', 'x', '2', '7', ';']

/-- Decides that special characters occur only in escaped form. -/
def escapedForm : List Char → Bool
  | [] => true
  | c :: cs =>
    if c = '\x3c' || c = '\x3e' || c = '\x22' then false
    else if c = '\x26' then entityHead cs && escapedForm cs
    else escapedForm cs

theorem unescapeList_escapeChar (c : Char) (l : List Char) :
    unescapeList (escapeChar c ++ l) = c :: unescapeList l := by
  by_cases h1 : c = '\x26'
  · subst h1; simp [escapeChar, unescapeList, List.take_succ_cons, List.drop_succ_cons]
  by_cases h2 : c = '\x3c'
  · subst h2; simp [escapeChar, unescapeList, List.take_succ_cons, List.drop_succ_cons]
  by_cases h3 : c = '\x3e'
  · subst h3; simp [escapeChar, unescapeList, List.take_succ_cons, List.drop_succ_cons]
  by_cases h4 : c = '\x22'
  · subst h4; simp [escapeChar, unescapeList, List.take_succ_cons, List.drop_succ_cons]
  by_cases h5 : c = '\x27'
  · subst h5; simp [escapeChar, unescapeList, List.take_succ_cons, List.drop_succ_cons]
  have he : escapeChar c = [c] := by simp [escapeChar, h1, h2, h3, h4, h5]
  rw [he, List.singleton_append]
  simp [unescapeList, h1]

theorem unescapeList_escapeList (l : List Char) :
    unescapeList (escapeList l) = l := by
  induction l with
  | nil => simp [escapeList, unescapeList]
  | cons c cs ih => rw [escapeList, unescapeList_escapeChar, ih]

/-- Round-trip: decoding an escaped string recovers the original. -/
theorem unescape_escape (s : String) : unescape (escape s) = s := by
  cases s with
  | mk l => simp [unescape, escape, unescapeList_escapeList]

theorem escapedForm_escapeChar (c : Char) (l : List Char) :
    escapedForm (escapeChar c ++ l) = escapedForm l := by
  by_cases h1 : c = '\x26'
  · subst h1; simp [escapeChar, escapedForm, entityHead]
  by_cases h2 : c = '\x3c'
  · subst h2; simp [escapeChar, escapedForm, entityHead]
  by_cases h3 : c = '\x3e'
  · subst h3; simp [escapeChar, escapedForm, entityHead]
  by_cases h4 : c = '\x22'
  · subst h4; simp [escapeChar, escapedForm, entityHead]
  by_cases h5 : c = '\x27'
  · subst h5; simp [escapeChar, escapedForm, entityHead]
  have he : escapeChar c = [c] := by simp [escapeChar, h1, h2, h3, h4, h5]
  rw [he, List.singleton_append]
  simp [escapedForm, h1, h2, h3, h4]

/-- Every string produced by escape is in properly escaped form. -/
theorem escapedForm_escapeList (l : List Char) :
    escapedForm (escapeList l) = true := by
  induction l with
  | nil => rfl
  | cons c cs ih => rw [escapeList, escapedForm_escapeChar, ih]

/-- Attribute values stored in an AttrMultiDict: plain strings, or lists of
strings (the normalized form of the class attribute). -/
inductive PyVal where
  | str : String → PyVal
  | list : List String → PyVal
deriving DecidableEq

/-- Python truthiness of an attribute value. -/
def pyTruthy : PyVal → Bool
  | .str s => s ≠ ""
  | .list l => !l.isEmpty

/-- Python str() of an attribute value as interpolated by an f-string:
strings pass through, lists print as their repr. -/
def pyValStr : PyVal → String
  | .str s => s
  | .list l =>
    "[" ++ String.intercalate ", " (l.map (fun s => "\x27" ++ s ++ "\x27")) ++ "]"

/-- ASCII lower-casing of one character (the attribute keys exercised by
the claims are ASCII). -/
def lowerChar (c : Char) : Char :=
  if 'A' ≤ c ∧ c ≤ 'Z' then Char.ofNat (c.toNat + 32) else c

/-- ASCII lower-casing of a string. -/
def lowerStr (s : String) : String := String.mk (s.data.map lowerChar)

/-- Case-insensitive key comparison of CIMultiDict (multidict), the backing
store of AttrMultiDict. -/
def keyEq (a b : String) : Bool := lowerStr a == lowerStr b

/-- The backing store of an AttrMultiDict: key-value pairs in insertion
order, keys compared case-insensitively. -/
abbrev Attrs := List (String × PyVal)

/-- CIMultiDict lookup: first pair whose key matches case-insensitively,
None when absent (a raised KeyError is modelled as none). -/
def attrLookup : Attrs → String → Option PyVal
  | [], _ => none
  | (k, v) :: rest, key => if keyEq k key then some v else attrLookup rest key

/-- The `key in d` containment test of CIMultiDict. -/
def attrContains (m : Attrs) (key : String) : Bool := (attrLookup m key).isSome

/-- CIMultiDict item assignment: replace the value at the first matching key
in place, or append a new pair at the end.  (The flows modelled here never
create duplicate keys, so dropping of extra duplicates is not modelled.) -/
def attrSet : Attrs → String → PyVal → Attrs
  | [], key, v => [(key, v)]
  | (k, w) :: rest, key, v =>
    if keyEq k key then (key, v) :: rest else (k, w) :: attrSet rest key v

/-- CIMultiDict item deletion: remove every pair with a matching key.  The
callers modelled below delete only keys known to be present. -/
def attrDelAll (m : Attrs) (key : String) : Attrs :=
  m.filter (fun kv => !(keyEq kv.1 key))

/-- AttrMultiDict._validate_class (attributes.py): a string splits on
whitespace into a set converted to a list, a sequence is stored as a list
as-is. -/
def validateClass : PyVal → List String
  | .str s => dedupAux [] (splitWS s)
  | .list l => l

/-- AttrMultiDict.__setitem__ (attributes.py): the exact key "class" is
normalized through _validate_class, every other key is stored directly. -/
def attrSetItem (m : Attrs) (key : String) (v : PyVal) : Attrs :=
  if key = "class" then attrSet m key (.list (validateClass v))
  else attrSet m key v

/-- AttrMultiDict.__getitem__ (attributes.py): for the exact key "class",
when no entry matches, an empty list is first stored and then returned;
otherwise a plain lookup (KeyError modelled as none).  Returns the value
together with the possibly-extended map. -/
def attrGetItem (m : Attrs) (key : String) : Option PyVal × Attrs :=
  if key = "class" && !attrContains m key then
    (some (.list []), attrSet m "class" (.list []))
  else (attrLookup m key, m)

/-- Models attrs["class"].append(c): __getitem__ (which may persist an empty
list) followed by an in-place mutation of the stored list object, which does
not pass through __setitem__ or _validate_class.  A non-list value is left
unchanged (Python would raise AttributeError; no claim exercises that). -/
def classAppend (m : Attrs) (c : String) : Attrs :=
  let m1 := (attrGetItem m "class").2
  m1.map (fun kv =>
    if keyEq kv.1 "class" then
      match kv.2 with
      | .list l => (kv.1, PyVal.list (l ++ [c]))
      | .str s => (kv.1, PyVal.str s)
    else kv)

/-- Python exceptions surfaced by the modelled code paths. -/
inductive PyErr where
  | keyError : String → PyErr
  | typeError : String → PyErr
  | attributeError : String → String → PyErr
deriving DecidableEq

instance {ε α : Type} [DecidableEq ε] [DecidableEq α] : DecidableEq (Except ε α) :=
  fun x y =>
    match x, y with
    | .ok a, .ok b =>
      if h : a = b then .isTrue (by rw [h]) else .isFalse (by simp [h])
    | .error a, .error b =>
      if h : a = b then .isTrue (by rw [h]) else .isFalse (by simp [h])
    | .ok _, .error _ => .isFalse (by simp)
    | .error _, .ok _ => .isFalse (by simp)

/-- The HTTP methods recognized by AttrsProperty (attributes.py).  The
source keeps them in a Python set whose iteration order is unspecified; the
theorems below place hypotheses making their conclusions independent of the
order chosen here. -/
def hxMethods : List String := ["get", "post", "put", "patch", "delete"]

/-- The loop in AttrsProperty.__set__ locating the currently active
prefixed method key: the first method whose key is present, otherwise the
last method iterated (Python leaves the loop variable at it). -/
def findCurrentMethodKey (m : Attrs) : String :=
  match hxMethods.find? (fun mth => attrContains m ("hx-" ++ mth)) with
  | some mth => "hx-" ++ mth
  | none => "hx-delete"

/-- AttrsProperty.__set__ for the method property (attributes.py): read the
rule stored under the currently active method key (KeyError when no method
key is present), delete that key, and re-store the rule under the new
method's key. -/
def setMethod (m : Attrs) (newMethod : String) : Except PyErr Attrs :=
  let ck := findCurrentMethodKey m
  match attrLookup m ck with
  | none => .error (.keyError ck)
  | some rule => .ok (attrSetItem (attrDelAll m ck) ("hx-" ++ newMethod) rule)

/-- AttrsProperty.__set__ for the rule property (attributes.py): store the
value under the currently active method key. -/
def setRule (m : Attrs) (v : PyVal) : Attrs :=
  attrSetItem m (findCurrentMethodKey m) v

/-- Truthiness filter applied by EventHandler.__init__ to optional string
fields. -/
def optTruthy : Option String → Bool
  | none => false
  | some s => s ≠ ""

/-- EventHandler.__init__ (events.py): build the attribute pairs, keeping
only truthy values; the method name is interpolated into the key with a
Python f-string, so an absent method yields the literal key "hx-None".
The surviving pairs are inserted in order through __setitem__. -/
def eventHandlerInit (rule method trigger target swap incl sync confirm vals :
    Option String) : Attrs :=
  let pairs : List (String × Option String) :=
    [("hx-" ++ method.getD "None", rule),
     ("hx-trigger", trigger),
     ("hx-target", target),
     ("hx-swap", swap),
     ("hx-include", incl),
     ("hx-sync", sync),
     ("hx-confirm", confirm),
     ("hx-vals", vals)]
  pairs.foldl
    (fun m kv =>
      match kv.2 with
      | some s => if s ≠ "" then attrSetItem m kv.1 (.str s) else m
      | none => m)
    []

theorem keyEq_comm (a b : String) : keyEq a b = keyEq b a := by
  by_cases h : lowerStr a = lowerStr b
  · simp [keyEq, h]
  · have h2 : ¬ lowerStr b = lowerStr a := fun hh => h hh.symm
    simp [keyEq, h, h2]

theorem keyEq_refl (a : String) : keyEq a a = true := by simp [keyEq]

theorem attrLookup_set_self (m : Attrs) (k : String) (v : PyVal) :
    attrLookup (attrSet m k v) k = some v := by
  induction m with
  | nil => simp [attrSet, attrLookup, keyEq_refl]
  | cons kv rest ih =>
    by_cases h : keyEq kv.1 k
    · simp [attrSet, h, attrLookup, keyEq_refl]
    · simp [attrSet, h, attrLookup, ih]

theorem attrLookup_set_ne (m : Attrs) (k q : String) (v : PyVal)
    (h : keyEq k q = false) :
    attrLookup (attrSet m k v) q = attrLookup m q := by
  induction m with
  | nil => simp [attrSet, attrLookup, h]
  | cons kv rest ih =>
    by_cases hk : keyEq kv.1 k
    · have h1 : lowerStr kv.1 = lowerStr k := by simpa [keyEq] using hk
      have hq : keyEq kv.1 q = false := by
        have h2 : ¬ lowerStr k = lowerStr q := by simpa [keyEq] using h
        simp [keyEq, h1, h2]
      simp [attrSet, hk, attrLookup, h, hq]
    · simp [attrSet, hk, attrLookup, ih]

theorem attrLookup_delAll_self (m : Attrs) (k : String) :
    attrLookup (attrDelAll m k) k = none := by
  induction m with
  | nil => simp [attrDelAll, attrLookup]
  | cons kv rest ih =>
    by_cases h : keyEq kv.1 k
    · simpa [attrDelAll, h] using ih
    · simpa [attrDelAll, attrLookup, h] using ih

theorem attrLookup_delAll_ne (m : Attrs) (k q : String)
    (h : keyEq k q = false) :
    attrLookup (attrDelAll m k) q = attrLookup m q := by
  induction m with
  | nil => simp [attrDelAll, attrLookup]
  | cons kv rest ih =>
    by_cases hk : keyEq kv.1 k
    · have hq : keyEq kv.1 q = false := by
        have h1 : lowerStr kv.1 = lowerStr k := by
          simpa [keyEq] using hk
        have h2 : ¬ lowerStr k = lowerStr q := by
          simpa [keyEq] using h
        simp [keyEq, h1, h2]
      simp [attrDelAll, hk, attrLookup, hq] at ih ⊢
      exact ih
    · simp [attrDelAll, hk, attrLookup] at ih ⊢
      by_cases hq : keyEq kv.1 q <;> simp [hq, ih]

/-- ContextDict (base.py): a render context is its own local dict plus an
optional parent chain (root when ContextDict.parent is None). -/
inductive Ctx where
  | root : List (String × String) → Ctx
  | node : List (String × String) → Ctx → Ctx
deriving DecidableEq

/-- Plain Python dict lookup (case-sensitive, unique keys). -/
def dictLookup : List (String × String) → String → Option String
  | [], _ => none
  | (k, v) :: rest, key => if k = key then some v else dictLookup rest key

/-- Python del d[key] on a plain dict: remove the (unique) matching entry. -/
def dictRemove : List (String × String) → String → List (String × String)
  | [], _ => []
  | (k, v) :: rest, key => if k = key then rest else (k, v) :: dictRemove rest key

/-- The local data of a context (UserDict.data). -/
def ctxLocalData : Ctx → List (String × String)
  | .root d => d
  | .node d _ => d

/-- ContextDict.__getitem__ (base.py): local lookup first, then fall
through to the parent chain; exhausting the chain raises KeyError
(modelled as none). -/
def ctxGet : Ctx → String → Option String
  | .root d, k => dictLookup d k
  | .node d p, k =>
    match dictLookup d k with
    | some v => some v
    | none => ctxGet p k

/-- ContextDict.__iter__ (base.py): the keys of the local dict followed by
the parent chain's keys (the Python code builds a set; only emptiness and
membership of this list are used below). -/
def ctxKeys : Ctx → List String
  | .root d => d.map (fun kv => kv.1)
  | .node d p => d.map (fun kv => kv.1) ++ ctxKeys p

/-- Python truthiness of a ContextDict: its __len__ is the number of keys
in the union of the local dict and all ancestors. -/
def ctxTruthy (c : Ctx) : Bool := !(ctxKeys c).isEmpty

/-- ContextDict.__delitem__ (base.py): delete locally when present;
otherwise, when the parent is truthy, delete from the parent and then
re-raise the original KeyError regardless (the bare raise sits after the
parent deletion, not restricted to the no-parent path).  Returns the
resulting chain and whether a KeyError escaped. -/
def ctxDel : Ctx → String → Ctx × Bool
  | .root d, k =>
    if (dictLookup d k).isSome then (.root (dictRemove d k), false)
    else (.root d, true)
  | .node d p, k =>
    if (dictLookup d k).isSome then (.node (dictRemove d k) p, false)
    else if ctxTruthy p then
      match ctxDel p k with
      | (p2, _) => (.node d p2, true)
    else (.node d p, true)

/-- The template-hole character, written by code point to keep braces out
of string literals. -/
def lbChar : Char := '\x7b'

/-- The closing template-hole character. -/
def rbChar : Char := '\x7d'

/-- Characters allowed in a template variable name in the modelled
template grammar. -/
def identChar (c : Char) : Bool := c.isAlphanum || c = '_'

/-- Modelled from the spec: the host templating engine (jinja2, external
to this repository) as far as the render paths exercise it — a template is
literal text with variable holes written as a double opening brace,
optional spaces, an identifier, optional spaces, and a double closing
brace.  Parses one hole body (everything after the double opening brace),
returning the variable name and the remainder. -/
def parseHole (l : List Char) : Option (String × List Char) :=
  let l1 := l.dropWhile (fun c => c = ' ')
  let nm := l1.takeWhile identChar
  let l2 := (l1.dropWhile identChar).dropWhile (fun c => c = ' ')
  match l2 with
  | c1 :: c2 :: rest =>
    if nm ≠ [] && c1 = rbChar && c2 = rbChar then some (String.mk nm, rest)
    else none
  | _ => none

/-- Substitution pass of the modelled template engine.  A variable absent
from the namespace renders as the empty string (jinja2's default
Undefined).  The fuel argument only bounds recursion; every step consumes
at least one character, so fuel equal to the input length is enough. -/
def tsubF (ns : String → Option String) : Nat → List Char → List Char
  | 0, l => l
  | _ + 1, [] => []
  | f + 1, c1 :: rest =>
    match rest with
    | [] => [c1]
    | c2 :: rest2 =>
      if c1 = lbChar && c2 = lbChar then
        match parseHole rest2 with
        | some (nm, rest3) => ((ns nm).getD "").data ++ tsubF ns f rest3
        | none => c1 :: tsubF ns f rest
      else c1 :: tsubF ns f rest

/-- Template.render of the modelled engine. -/
def templateRender (ns : String → Option String) (s : String) : String :=
  String.mk (tsubF ns s.data.length s.data)

/-- Python repr of a plain string dict, the str() of a UserDict. -/
def dictReprStr (d : List (String × String)) : String :=
  "\x7b" ++
    String.intercalate ", "
      (d.map (fun kv => "\x27" ++ kv.1 ++ "\x27: \x27" ++ kv.2 ++ "\x27")) ++
  "\x7d"

/-- The template namespace supplied by render (base.py): with no active
context the namespace is empty (Template.render() with no arguments); with
an active context the call is Template.render(ctx=ctx), so the single
template variable is the name "ctx", whose stringification is the
UserDict repr of the context's local data. -/
def nsOf : Option Ctx → String → Option String
  | none, _ => none
  | some c, v =>
    if v = "ctx" then some (dictReprStr (ctxLocalData c)) else none

theorem tsubF_nolb (ns : String → Option String) :
    ∀ (f : Nat) (l : List Char), l.length ≤ f → lbChar ∉ l →
      tsubF ns f l = l := by
  intro f
  induction f with
  | zero => intro l _ _; rfl
  | succ f ih =>
    intro l hlen hmem
    match l with
    | [] => rfl
    | [c1] => rfl
    | c1 :: c2 :: rest2 =>
      have hc1 : ¬ c1 = lbChar := fun h => hmem (h ▸ List.mem_cons_self _ _)
      have htail : lbChar ∉ c2 :: rest2 := fun h => hmem (List.mem_cons_of_mem _ h)
      have hlen2 : (c2 :: rest2).length ≤ f := by
        simp [List.length_cons] at hlen ⊢
        omega
      simp [tsubF, hc1, ih (c2 :: rest2) hlen2 htail]

/-- Strings without an opening brace character render as themselves under
any namespace. -/
theorem templateRender_nolb (ns : String → Option String) (s : String)
    (h : lbChar ∉ s.data) : templateRender ns s = s := by
  cases s with
  | mk l => simp [templateRender, tsubF_nolb ns l.length l (le_refl _) h]

/-- The character class of the regex in EventHandlerList.validate
(events.py): a hash sign or a word character.  The Python re module with
its default unicode word class is modelled over ASCII alphanumerics and
the underscore, which covers every selector exercised below. -/
def classChar (c : Char) : Bool := c = '#' || c.isAlphanum || c = '_'

/-- The five characters of the lookbehind "from:" in reverse order. -/
def fromRev : List Char := [':', 'm', 'o', 'r', 'f']

/-- One pass of re.sub with the pattern of EventHandlerList.validate: a
fixed-width lookbehind for "from:" followed by one or more class
characters, every match replaced by repl.  The prev argument is the
already-scanned part of the original string in reverse (the lookbehind
examines the original text, also inside earlier replacements); inM is true
while the scan is inside a maximal run of class characters belonging to a
match, and found records whether any match was replaced. -/
def scanFromAux (repl : List Char) :
    List Char → Bool → Bool → List Char → List Char × Bool
  | _, _, found, [] => ([], found)
  | prev, inM, found, c :: cs =>
    if inM && classChar c then scanFromAux repl (c :: prev) true found cs
    else if prev.take 5 = fromRev && classChar c then
      let r := scanFromAux repl (c :: prev) true true cs
      (repl ++ r.1, r.2)
    else
      let r := scanFromAux repl (c :: prev) false found cs
      (c :: r.1, r.2)

/-- re.sub of the validate pattern over a whole trigger string: the
rewritten text and whether any match was found. -/
def scanFrom (repl : List Char) (t : List Char) : List Char × Bool :=
  scanFromAux repl [] false false t

/-- Whether a trigger string contains a from:-selector clause, i.e.
whether the validate regex matches anywhere.  The replacement text does
not influence where the pattern matches (proved below). -/
def hasFromClause (t : String) : Bool := (scanFrom [] t.data).2

/-- EventHandlerList.validate (events.py): the incoming handler is
deep-copied (the model is pure, so the copy is implicit); reading
event.trigger raises KeyError when the handler has no hx-trigger key, in
which case the handler is returned untouched; otherwise the owning
element's id attribute is read (KeyError when the element has no id
attribute — the read sits outside the try block and escapes to the
caller), the trigger is rewritten by re.sub, and when no match was found
the string " from:#<id>" is appended. -/
def ehlValidate (elemAttrs handler : Attrs) : Except PyErr Attrs :=
  match attrLookup handler "hx-trigger" with
  | none => .ok handler
  | some tv =>
    match attrLookup elemAttrs "id" with
    | none => .error (.keyError "id")
    | some idv =>
      match tv with
      | .list _ => .error (.typeError "expected string or bytes-like object")
      | .str t =>
        let repl := "#" ++ pyValStr idv
        let r := scanFrom repl.data t.data
        let t2 := String.mk r.1
        let newT := if r.2 then t2 else t2 ++ " from:" ++ repl
        .ok (attrSetItem handler "hx-trigger" (.str newT))

/-- Element.__init__ (element.py): the attribute map is copied, then the
id and hyperscript keyword arguments are stored (only when truthy) under
the keys "id" and "_".  The component uuid generated in Component.__new__
is never written into the attribute map. -/
def elementInitAttrs (attrs : Attrs) (id hyper : Option String) : Attrs :=
  let a1 := match id with
    | some s => if s ≠ "" then attrSetItem attrs "id" (.str s) else attrs
    | none => attrs
  match hyper with
  | some h => if h ≠ "" then attrSetItem a1 "_" (.str h) else a1
  | none => a1

theorem scanFromAux_found_true (repl : List Char) :
    ∀ (l prev : List Char) (inM : Bool),
      (scanFromAux repl prev inM true l).2 = true := by
  intro l
  induction l with
  | nil => intro prev inM; rfl
  | cons c cs ih =>
    intro prev inM
    simp only [scanFromAux]
    split
    · exact ih _ _
    · split
      · simp [ih]
      · simp [ih]

theorem scanFromAux_found_indep (repl1 repl2 : List Char) :
    ∀ (l prev : List Char) (inM found : Bool),
      (scanFromAux repl1 prev inM found l).2
        = (scanFromAux repl2 prev inM found l).2 := by
  intro l
  induction l with
  | nil => intro prev inM found; rfl
  | cons c cs ih =>
    intro prev inM found
    simp only [scanFromAux]
    split
    · exact ih _ _ _
    · split
      · simp [ih]
      · simp [ih]

theorem scanFromAux_nomatch (repl : List Char) :
    ∀ (l prev : List Char),
      (scanFromAux repl prev false false l).2 = false →
      (scanFromAux repl prev false false l).1 = l := by
  intro l
  induction l with
  | nil => intro prev _; rfl
  | cons c cs ih =>
    intro prev h
    by_cases hb : List.take 5 prev = fromRev ∧ classChar c = true
    · simp [scanFromAux, hb, scanFromAux_found_true] at h
    · simp [scanFromAux, hb] at h ⊢
      exact ih _ h

theorem take_ne_fromRev_of_colon_notin (prev : List Char) (h : ':' ∉ prev) :
    ¬ prev.take 5 = fromRev := by
  intro he
  have hm : ':' ∈ prev.take 5 := by rw [he]; decide
  exact h (List.take_subset _ _ hm)

theorem scanFromAux_skip (repl : List Char) :
    ∀ (l1 : List Char), (∀ c ∈ l1, c ≠ ':') →
    ∀ (prev l2 : List Char) (found : Bool), ':' ∉ prev →
      scanFromAux repl prev false found (l1 ++ l2)
        = (l1 ++ (scanFromAux repl (l1.reverse ++ prev) false found l2).1,
           (scanFromAux repl (l1.reverse ++ prev) false found l2).2) := by
  intro l1
  induction l1 with
  | nil => intro _ prev l2 found _; simp
  | cons c cs ih =>
    intro hcf prev l2 found hprev
    have hc : c ≠ ':' := hcf c (List.mem_cons_self _ _)
    have hne : ¬ (c :: prev).take 5 = fromRev := by
      apply take_ne_fromRev_of_colon_notin
      intro hm
      rcases List.mem_cons.mp hm with h1 | h2
      · exact hc h1.symm
      · exact hprev h2
    have hprev2 : ':' ∉ (c :: prev) := by
      intro hm
      rcases List.mem_cons.mp hm with h1 | h2
      · exact hc h1.symm
      · exact hprev h2
    have hcs : ∀ x ∈ cs, x ≠ ':' := fun x hx => hcf x (List.mem_cons_of_mem _ hx)
    have hprevne : ¬ prev.take 5 = fromRev :=
      take_ne_fromRev_of_colon_notin prev hprev
    have hbranch : ¬ (List.take 5 prev = fromRev ∧ classChar c = true) :=
      fun hx => hprevne hx.1
    have hrec := ih hcs (c :: prev) l2 found hprev2
    simp [scanFromAux, hbranch, hrec, List.append_assoc]

theorem scanFromAux_inM_allclass (repl : List Char) :
    ∀ (l prev : List Char) (found : Bool), (∀ c ∈ l, classChar c = true) →
      scanFromAux repl prev true found l = ([], found) := by
  intro l
  induction l with
  | nil => intro prev found _; rfl
  | cons c cs ih =>
    intro prev found hcls
    have hc : classChar c = true := hcls c (List.mem_cons_self _ _)
    simp only [scanFromAux, hc, Bool.and_true, if_pos]
    exact ih _ _ (fun x hx => hcls x (List.mem_cons_of_mem _ hx))

theorem scanFromAux_fromSegment (repl prev : List Char) (found : Bool)
    (sel : List Char) (hprev : ':' ∉ prev) (hne : sel ≠ [])
    (hcls : ∀ c ∈ sel, classChar c = true) :
    scanFromAux repl prev false found ([' ', 'f', 'r', 'o', 'm', ':'] ++ sel)
      = ([' ', 'f', 'r', 'o', 'm', ':'] ++ repl, true) := by
  obtain ⟨s0, srest, rfl⟩ : ∃ s0 srest, sel = s0 :: srest := by
    cases sel with
    | nil => exact absurd rfl hne
    | cons a b => exact ⟨a, b, rfl⟩
  have hs0 : classChar s0 = true := hcls s0 (List.mem_cons_self _ _)
  have hsrest : ∀ c ∈ srest, classChar c = true :=
    fun c hc => hcls c (List.mem_cons_of_mem _ hc)
  have hskip := scanFromAux_skip repl [' ', 'f', 'r', 'o', 'm']
    (by decide) prev (':' :: s0 :: srest) found hprev
  have heq : ([' ', 'f', 'r', 'o', 'm', ':'] ++ s0 :: srest)
      = [' ', 'f', 'r', 'o', 'm'] ++ (':' :: s0 :: srest) := by simp
  have hrev : (([' ', 'f', 'r', 'o', 'm'] : List Char).reverse) ++ prev
      = 'm' :: 'o' :: 'r' :: 'f' :: ' ' :: prev := rfl
  rw [hrev] at hskip
  have hZ : scanFromAux repl (s0 :: ':' :: 'm' :: 'o' :: 'r' :: 'f' :: ' ' :: prev)
      true true srest = ([], true) :=
    scanFromAux_inM_allclass repl srest _ true hsrest
  have hY : scanFromAux repl (':' :: 'm' :: 'o' :: 'r' :: 'f' :: ' ' :: prev)
      false found (s0 :: srest) = (repl, true) := by
    simp [scanFromAux, hs0, hZ, fromRev]
  have hX : scanFromAux repl ('m' :: 'o' :: 'r' :: 'f' :: ' ' :: prev)
      false found (':' :: s0 :: srest) = (':' :: repl, true) := by
    simp [scanFromAux, hY, hZ, hs0, fromRev, (by decide : classChar ':' = false)]
  rw [heq, hskip, hX]
  simp

/-- Renderable values reaching the render dispatcher (base.py): None,
elements (tag, children, attribute map, bound event-handler list),
standalone event handlers, strings, iterables, and unsupported scalars
such as integers, carried with their Python type name (values of these
kinds have no render attribute). -/
inductive RValue where
  | vnone : RValue
  | velem : String → RValue → Attrs → List Attrs → RValue
  | vhandler : Attrs → RValue
  | vstr : String → RValue
  | vlist : List RValue → RValue
  | vother : String → RValue

/-- Component.render_with_context (base.py): a fresh empty ContextDict
whose parent is whatever context was active at the call. -/
def pushCtx : Option Ctx → Ctx
  | none => .root []
  | some c => .node [] c

/-- The value resolution inside AttrMultiDict.to_string: render(v) for a
string value is template substitution under the ambient context, and for a
list value renders each member and joins with single spaces (the iterable
branch of render). -/
def renderVal (octx : Option Ctx) : PyVal → String
  | .str s => templateRender (nsOf octx) s
  | .list l => joinSpace (l.map (fun s => templateRender (nsOf octx) s))

/-- One serialized pair of AttrMultiDict.to_string (attributes.py):
escaped key, equals sign, double-quoted escaped resolved value. -/
def attrPairStr (octx : Option Ctx) (kv : String × PyVal) : String :=
  escape kv.1 ++ "=\x22" ++ escape (renderVal octx kv.2) ++ "\x22"

/-- AttrMultiDict.to_string (attributes.py): the serialized pairs joined
with single spaces.  String and list values always resolve, so the
ValueError wrapping of to_string is unreachable in the model. -/
def attrsToString (octx : Option Ctx) (m : Attrs) : String :=
  joinSpace (m.map (attrPairStr octx))

/-- EventHandler.render (events.py): a div element carrying the handler's
serialized attributes, rendered (through the Component machinery) under a
freshly pushed context. -/
def handlerRender (octx : Option Ctx) (h : Attrs) : String :=
  "<div " ++ attrsToString (some (pushCtx octx)) h ++ "></div>"

mutual

/-- The polymorphic render function (base.py) together with Element.render
(element.py): None renders empty; a Component invokes its render method
under a freshly pushed context (for an Element: children, then escaped
tag, serialized attributes, the first event handler inline on the opening
tag, and the remaining handlers appended after the closing tag; for an
EventHandler: its div marker); a non-string iterable renders its members
joined with single spaces; a string is rendered as a template against the
active context's namespace; anything else fails with AttributeError
naming the value's type, raised when the missing render attribute is
accessed. -/
def renderR (octx : Option Ctx) : RValue → Except PyErr String
  | .vnone => .ok ""
  | .velem tag children attrs events =>
    match renderR (some (pushCtx octx)) children with
    | .error e => .error e
    | .ok ch =>
      let t := escape tag
      let astr := attrsToString (some (pushCtx octx)) attrs
      match events with
      | [] => .ok ("<" ++ t ++ " " ++ astr ++ ">" ++ ch ++ "</" ++ t ++ ">")
      | e0 :: rest =>
        .ok ("<" ++ t ++ " " ++ astr ++ " "
          ++ attrsToString (some (pushCtx octx)) e0 ++ ">" ++ ch ++ "</" ++ t ++ ">"
          ++ joinSpace (rest.map (handlerRender (some (pushCtx octx)))))
  | .vhandler h => .ok (handlerRender octx h)
  | .vstr s => .ok (templateRender (nsOf octx) s)
  | .vlist l => renderRList octx l
  | .vother tn => .error (.attributeError tn "render")

/-- The iterable branch of render (base.py): " ".join over the rendered
members, the first raised error propagating. -/
def renderRList (octx : Option Ctx) : List RValue → Except PyErr String
  | [] => .ok ""
  | [x] => renderR octx x
  | x :: xs =>
    match renderR octx x with
    | .error e => .error e
    | .ok s =>
      match renderRList octx xs with
      | .error e => .error e
      | .ok t2 => .ok (s ++ " " ++ t2)

end

theorem string_data_append (a b : String) : (a ++ b).data = a.data ++ b.data := by
  cases a; cases b; rfl

theorem string_mk_data (s : String) : String.mk s.data = s := by
  cases s; rfl

theorem string_eq_of_data (a b : String) (h : a.data = b.data) : a = b := by
  cases a; cases b; exact congrArg String.mk h

theorem dedupAux_not_mem_seen :
    ∀ (l seen : List String) (x : String), x ∈ dedupAux seen l → x ∉ seen := by
  intro l
  induction l with
  | nil => intro seen x hx; simp [dedupAux] at hx
  | cons y ys ih =>
    intro seen x hx
    by_cases hy : y ∈ seen
    · simp [dedupAux, hy] at hx
      exact ih seen x hx
    · simp [dedupAux, hy] at hx
      rcases hx with h1 | h2
      · subst h1; exact hy
      · intro hs
        exact ih (y :: seen) x h2 (List.mem_cons_of_mem _ hs)

theorem dedupAux_nodup : ∀ (l seen : List String), (dedupAux seen l).Nodup := by
  intro l
  induction l with
  | nil => intro seen; simp [dedupAux]
  | cons y ys ih =>
    intro seen
    by_cases hy : y ∈ seen
    · simp [dedupAux, hy]; exact ih seen
    · simp only [dedupAux, hy, if_false, List.nodup_cons]
      refine ⟨?_, ih (y :: seen)⟩
      intro hmem
      exact dedupAux_not_mem_seen ys (y :: seen) y hmem (List.mem_cons_self _ _)

theorem dictLookup_mem (d : List (String × String)) (k v : String)
    (h : dictLookup d k = some v) : k ∈ d.map Prod.fst := by
  induction d with
  | nil => simp [dictLookup] at h
  | cons kv rest ih =>
    by_cases hk : kv.1 = k
    · simp [hk]
    · rw [show kv = (kv.1, kv.2) from rfl, dictLookup, if_neg hk] at h
      simp [ih h]

theorem dictLookup_not_mem (d : List (String × String)) (k : String)
    (h : k ∉ d.map Prod.fst) : dictLookup d k = none := by
  induction d with
  | nil => rfl
  | cons kv rest ih =>
    simp at h
    rw [show kv = (kv.1, kv.2) from rfl, dictLookup, if_neg (fun he => h.1 he.symm)]
    exact ih (by simpa using h.2)

theorem dictLookup_remove_self (d : List (String × String)) (k : String)
    (hnd : (d.map Prod.fst).Nodup) : dictLookup (dictRemove d k) k = none := by
  induction d with
  | nil => rfl
  | cons kv rest ih =>
    simp only [List.map_cons, List.nodup_cons] at hnd
    by_cases hk : kv.1 = k
    · rw [show kv = (kv.1, kv.2) from rfl, dictRemove, if_pos hk]
      apply dictLookup_not_mem
      rw [← hk]
      exact hnd.1
    · rw [show kv = (kv.1, kv.2) from rfl, dictRemove, if_neg hk, dictLookup,
        if_neg hk]
      exact ih hnd.2

theorem attrLookup_mapClassAppend (c : String) :
    ∀ (m : Attrs) (l : List String), attrLookup m "class" = some (.list l) →
      attrLookup (m.map (fun kv =>
        if keyEq kv.1 "class" then
          match kv.2 with
          | .list l2 => (kv.1, PyVal.list (l2 ++ [c]))
          | .str s => (kv.1, PyVal.str s)
        else kv)) "class" = some (.list (l ++ [c])) := by
  intro m
  induction m with
  | nil => intro l h; simp [attrLookup] at h
  | cons kv rest ih =>
    intro l h
    obtain ⟨k0, v0⟩ := kv
    by_cases hk : keyEq k0 "class"
    · rw [attrLookup, if_pos hk] at h
      have hv : v0 = PyVal.list l := by injection h
      subst hv
      rw [List.map_cons]
      show attrLookup ((if keyEq k0 "class" = true
          then (k0, PyVal.list (l ++ [c]))
          else (k0, PyVal.list l)) :: List.map (fun kv =>
            if keyEq kv.1 "class" then
              match kv.2 with
              | .list l2 => (kv.1, PyVal.list (l2 ++ [c]))
              | .str s => (kv.1, PyVal.str s)
            else kv) rest) "class" = some (PyVal.list (l ++ [c]))
      rw [if_pos hk, attrLookup, if_pos hk]
    · rw [attrLookup, if_neg hk] at h
      simp only [List.map_cons]
      simp only [hk, Bool.false_eq_true, if_false]
      rw [attrLookup, if_neg hk]
      exact ih l h

theorem attrLookup_classAppend (m : Attrs) (c : String) (l : List String)
    (h : attrLookup m "class" = some (.list l)) :
    attrLookup (classAppend m c) "class" = some (.list (l ++ [c])) := by
  have hm1 : (attrGetItem m "class").2 = m := by
    simp [attrGetItem, attrContains, h]
  simp only [classAppend]
  rw [hm1]
  exact attrLookup_mapClassAppend c m l h

/-- C1: for every event handler inserted into an event-handler list bound
to an element whose id attribute is the string idv — when the handler has
no trigger, it is stored without rewriting; when the trigger contains no
from:-clause, the string " from:#idv" is appended; and when the trigger is
an event expression followed by a from:-clause whose selector is a hash or
bare-word token, that selector is replaced by "#idv" regardless of what
was written.  (The event-expression part is constrained to contain no
colon, which every DOM event expression satisfies; the regex lookbehind
only fires after the literal "from:".) -/
theorem c1_trigger_rewrite (elemAttrs handler : Attrs) (idv : String)
    (hid : attrLookup elemAttrs "id" = some (.str idv)) :
    (attrLookup handler "hx-trigger" = none →
      ehlValidate elemAttrs handler = .ok handler)
    ∧ (∀ t : String, attrLookup handler "hx-trigger" = some (.str t) →
        hasFromClause t = false →
        ehlValidate elemAttrs handler
          = .ok (attrSetItem handler "hx-trigger"
              (.str (t ++ " from:#" ++ idv))))
    ∧ (∀ ev sel : String,
        attrLookup handler "hx-trigger" = some (.str (ev ++ " from:" ++ sel)) →
        (∀ c ∈ ev.data, c ≠ ':') → sel.data ≠ [] →
        (∀ c ∈ sel.data, classChar c = true) →
        ehlValidate elemAttrs handler
          = .ok (attrSetItem handler "hx-trigger"
              (.str (ev ++ " from:#" ++ idv)))) := by
  refine ⟨?_, ?_, ?_⟩
  · intro h
    simp [ehlValidate, h]
  · intro t ht hf
    have hfound : (scanFrom ("#" ++ idv).data t.data).2 = false := by
      rw [scanFrom, scanFromAux_found_indep ("#" ++ idv).data []]
      exact hf
    have hout : (scanFrom ("#" ++ idv).data t.data).1 = t.data :=
      scanFromAux_nomatch _ t.data [] hfound
    have hmk : String.mk (scanFrom ("#" ++ idv).data t.data).1 = t := by
      rw [hout]
    have hstr : String.mk (scanFrom ("#" ++ idv).data t.data).1 ++ " from:"
        ++ ("#" ++ idv) = t ++ " from:#" ++ idv := by
      rw [hmk]
      apply string_eq_of_data
      simp [string_data_append, List.append_assoc]
    simp only [ehlValidate, ht, hid, pyValStr]
    rw [hfound, if_neg Bool.false_ne_true, hstr]
  · intro ev sel ht hev hselne hselcls
    have hlit : (" from:" : String).data = [' ', 'f', 'r', 'o', 'm', ':'] := rfl
    have hdata : (ev ++ " from:" ++ sel).data
        = ev.data ++ ([' ', 'f', 'r', 'o', 'm', ':'] ++ sel.data) := by
      rw [string_data_append, string_data_append, hlit, List.append_assoc]
    have hprev : ':' ∉ (ev.data.reverse ++ ([] : List Char)) := by
      intro hm
      rcases List.mem_append.mp hm with h1 | h2
      · exact hev _ (List.mem_reverse.mp h1) rfl
      · simp at h2
    have hseg := scanFromAux_fromSegment ("#" ++ idv).data
      (ev.data.reverse ++ []) false sel.data hprev hselne hselcls
    have hskip := scanFromAux_skip ("#" ++ idv).data ev.data hev []
      ([' ', 'f', 'r', 'o', 'm', ':'] ++ sel.data) false (by simp)
    have hscan : scanFrom ("#" ++ idv).data (ev ++ " from:" ++ sel).data
        = (ev.data ++ ([' ', 'f', 'r', 'o', 'm', ':'] ++ ("#" ++ idv).data),
           true) := by
      rw [scanFrom, hdata, hskip, hseg]
    have hfound3 : (scanFrom ("#" ++ idv).data (ev ++ " from:" ++ sel).data).2
        = true := by rw [hscan]
    have hout3 : (scanFrom ("#" ++ idv).data (ev ++ " from:" ++ sel).data).1
        = ev.data ++ ([' ', 'f', 'r', 'o', 'm', ':'] ++ ("#" ++ idv).data) := by
      rw [hscan]
    have hstr : String.mk (ev.data
        ++ ([' ', 'f', 'r', 'o', 'm', ':'] ++ ("#" ++ idv).data))
        = ev ++ " from:#" ++ idv := by
      apply string_eq_of_data
      simp [string_data_append, List.append_assoc]
    simp only [ehlValidate, ht, hid, pyValStr]
    rw [hfound3, if_pos rfl, hout3, hstr]

/-- Witness for C1: the two spec examples, an explicit selector rewritten
to the bound element's id and an implicit trigger gaining a from clause. -/
theorem c1_trigger_rewrite_witness :
    ehlValidate [("id", PyVal.str "btn1")]
        [("hx-trigger", PyVal.str "click from:#other")]
      = Except.ok [("hx-trigger", PyVal.str "click from:#btn1")]
    ∧ ehlValidate [("id", PyVal.str "btn1")]
        [("hx-trigger", PyVal.str "mouseover")]
      = Except.ok [("hx-trigger", PyVal.str "mouseover from:#btn1")] := by
  constructor
  · have h := (c1_trigger_rewrite [("id", PyVal.str "btn1")]
      [("hx-trigger", PyVal.str "click from:#other")] "btn1" (by decide)).2.2
      "click" "#other" (by decide) (by decide) (by decide) (by decide)
    exact h.trans (by decide)
  · have h := (c1_trigger_rewrite [("id", PyVal.str "btn1")]
      [("hx-trigger", PyVal.str "mouseover")] "btn1" (by decide)).2.1
      "mouseover" (by decide) (by decide)
    exact h.trans (by decide)

/-- C2: when an event handler carries exactly one method-keyed attribute,
the one for get holding the rule r, setting method to post leaves exactly
one method-keyed attribute, the post one, holding r, with no stale get key
and no other method key; subsequently setting the rule stores the new
value under the active post key.  The hypotheses make the conclusion
independent of the unspecified iteration order of the Python method set. -/
theorem c2_method_rule_exclusivity (m : Attrs) (r v : PyVal)
    (hget : attrLookup m "hx-get" = some r)
    (hpost : attrLookup m "hx-post" = none)
    (hput : attrLookup m "hx-put" = none)
    (hpatch : attrLookup m "hx-patch" = none)
    (hdelete : attrLookup m "hx-delete" = none) :
    setMethod m "post" = .ok (attrSet (attrDelAll m "hx-get") "hx-post" r)
    ∧ attrLookup (attrSet (attrDelAll m "hx-get") "hx-post" r) "hx-post" = some r
    ∧ attrLookup (attrSet (attrDelAll m "hx-get") "hx-post" r) "hx-get" = none
    ∧ attrLookup (attrSet (attrDelAll m "hx-get") "hx-post" r) "hx-put" = none
    ∧ attrLookup (attrSet (attrDelAll m "hx-get") "hx-post" r) "hx-patch" = none
    ∧ attrLookup (attrSet (attrDelAll m "hx-get") "hx-post" r) "hx-delete" = none
    ∧ attrLookup (setRule (attrSet (attrDelAll m "hx-get") "hx-post" r) v)
        "hx-post" = some v := by
  have hck : findCurrentMethodKey m = "hx-get" := by
    simp [findCurrentMethodKey, hxMethods, List.find?, attrContains, hget]
  have hpost2 : attrLookup (attrSet (attrDelAll m "hx-get") "hx-post" r)
      "hx-post" = some r := attrLookup_set_self _ _ _
  have hget2 : attrLookup (attrSet (attrDelAll m "hx-get") "hx-post" r)
      "hx-get" = none := by
    rw [attrLookup_set_ne _ _ _ _ (by decide), attrLookup_delAll_self]
  have hother : ∀ q : String, keyEq "hx-post" q = false → keyEq "hx-get" q = false →
      attrLookup m q = none →
      attrLookup (attrSet (attrDelAll m "hx-get") "hx-post" r) q = none := by
    intro q h1 h2 h3
    rw [attrLookup_set_ne _ _ _ _ h1, attrLookup_delAll_ne _ _ _ h2, h3]
  refine ⟨?_, hpost2, hget2, hother _ (by decide) (by decide) hput,
    hother _ (by decide) (by decide) hpatch,
    hother _ (by decide) (by decide) hdelete, ?_⟩
  · simp only [setMethod, hck, hget]
    rw [attrSetItem, if_neg (by decide)]
    rfl
  · have hck2 : findCurrentMethodKey
        (attrSet (attrDelAll m "hx-get") "hx-post" r) = "hx-post" := by
      simp [findCurrentMethodKey, hxMethods, List.find?, attrContains,
        hget2, hpost2]
    rw [setRule, hck2, attrSetItem, if_neg (by decide)]
    exact attrLookup_set_self _ _ _

/-- Witness for C2: a handler built with method get and rule "/data". -/
theorem c2_method_rule_exclusivity_witness :
    setMethod [("hx-get", PyVal.str "/data")] "post"
      = Except.ok [("hx-post", PyVal.str "/data")]
    ∧ attrLookup (setRule [("hx-post", PyVal.str "/data")] (PyVal.str "/new"))
        "hx-post" = some (PyVal.str "/new") := by
  have h := c2_method_rule_exclusivity [("hx-get", PyVal.str "/data")]
    (PyVal.str "/data") (PyVal.str "/new")
    (by decide) (by decide) (by decide) (by decide) (by decide)
  constructor
  · exact h.1.trans (by decide)
  · have h7 := h.2.2.2.2.2.2
    have he : attrSet (attrDelAll [("hx-get", PyVal.str "/data")] "hx-get")
        "hx-post" (PyVal.str "/data") = [("hx-post", PyVal.str "/data")] := by
      decide
    rw [← he]
    exact h7

/-- C3 counterexample: the claim calls the extra handlers' markers hidden,
self-closing elements.  For a concrete button with two handlers the actual
output appends a plain div with a separate closing tag: the output does
not end in a self-closing "/>" and contains no "hidden" attribute. -/
theorem c3_counterexample :
    renderR none (RValue.velem "button" RValue.vnone [("id", PyVal.str "b1")]
        [[("hx-get", PyVal.str "/a")], [("hx-post", PyVal.str "/b")]])
      = Except.ok
        "<button id=\x22b1\x22 hx-get=\x22/a\x22></button><div hx-post=\x22/b\x22></div>"
    ∧ ¬ List.IsSuffix ['/', '>']
        "<button id=\x22b1\x22 hx-get=\x22/a\x22></button><div hx-post=\x22/b\x22></div>".data
    ∧ ¬ List.IsInfix "hidden".data
        "<button id=\x22b1\x22 hx-get=\x22/a\x22></button><div hx-post=\x22/b\x22></div>".data :=
  ⟨by decide, by decide, by decide⟩

/-- C3 (amended): an element with two or more event handlers renders
exactly one inline attribute set, the first handler's, on its own opening
tag; each remaining handler is appended after the closing tag as a
standalone empty div marker (with a separate closing tag, neither hidden
nor self-closing), the markers joined by single spaces, each bearing only
its own handler's attributes and nothing from the first handler. -/
theorem c3_sibling_markers_amended (octx : Option Ctx) (tag : String)
    (children : RValue) (attrs h1 h2 : Attrs) (hs : List Attrs) (ch : String)
    (hch : renderR (some (pushCtx octx)) children = .ok ch) :
    renderR octx (.velem tag children attrs (h1 :: h2 :: hs))
      = .ok ("<" ++ escape tag ++ " " ++ attrsToString (some (pushCtx octx)) attrs
          ++ " " ++ attrsToString (some (pushCtx octx)) h1 ++ ">" ++ ch
          ++ "</" ++ escape tag ++ ">"
          ++ joinSpace ((h2 :: hs).map (handlerRender (some (pushCtx octx)))))
    ∧ ∀ hx ∈ h2 :: hs, handlerRender (some (pushCtx octx)) hx
        = "<div " ++ attrsToString (some (pushCtx (some (pushCtx octx)))) hx
          ++ "></div>" := by
  constructor
  · simp [renderR, hch]
  · intro hx _
    rfl

/-- Witness for the amended C3: the concrete two-handler button. -/
theorem c3_sibling_markers_amended_witness :
    renderR none (RValue.velem "button" RValue.vnone [("id", PyVal.str "b1")]
        [[("hx-get", PyVal.str "/a")], [("hx-post", PyVal.str "/b")]])
      = Except.ok
        "<button id=\x22b1\x22 hx-get=\x22/a\x22></button><div hx-post=\x22/b\x22></div>" := by
  have h := (c3_sibling_markers_amended none "button" RValue.vnone
    [("id", PyVal.str "b1")] [("hx-get", PyVal.str "/a")]
    [("hx-post", PyVal.str "/b")] [] "" (by decide)).1
  exact h.trans (by decide)

/-- C4 counterexample: with no active context a string containing a
template variable hole is not returned unchanged — the hole renders empty
(jinja2 renders undefined variables as the empty string); and with an
active context the context's keys are not the template namespace — render
passes the context as the single variable named ctx, so a hole naming a
context key also renders empty instead of substituting its value. -/
theorem c4_counterexample :
    renderR none (RValue.vstr (String.mk
        ['\x7b', '\x7b', ' ', 'x', ' ', '\x7d', '\x7d'])) = Except.ok ""
    ∧ (Except.ok (String.mk ['\x7b', '\x7b', ' ', 'x', ' ', '\x7d', '\x7d'])
        : Except PyErr String) ≠ Except.ok ""
    ∧ renderR (some (Ctx.root [("name", "World")]))
        (RValue.vstr ("Hello, " ++ String.mk
          ['\x7b', '\x7b', ' ', 'n', 'a', 'm', 'e', ' ', '\x7d', '\x7d']))
        = Except.ok "Hello, "
    ∧ ("Hello, " : String) ≠ "Hello, World" :=
  ⟨by decide, by decide, by decide, by decide⟩

/-- C4 (amended): strings are always rendered as templates; a string with
no opening brace renders to itself whether or not a context is active.
With no context the namespace is empty, and with a context the namespace
binds only the single name ctx, so template variables other than ctx
render as the empty string (shown by the counterexample). -/
theorem c4_template_render_amended (s : String) (octx : Option Ctx)
    (h : lbChar ∉ s.data) :
    renderR octx (RValue.vstr s) = Except.ok s := by
  have ht := templateRender_nolb (nsOf octx) s h
  simp [renderR, ht]

/-- Witness for the amended C4: a brace-free string with and without an
active context. -/
theorem c4_template_render_amended_witness :
    renderR none (RValue.vstr "Hello") = Except.ok "Hello"
    ∧ renderR (some (Ctx.root [("x", "1")])) (RValue.vstr "Hello")
      = Except.ok "Hello" :=
  ⟨c4_template_render_amended "Hello" none (by decide),
   c4_template_render_amended "Hello" (some (Ctx.root [("x", "1")])) (by decide)⟩

/-- C5: context lookup of a key absent locally falls through to the parent
chain; deleting a key absent locally falls through to the parent and
removes the key from the parent's dict (the operation also re-raises the
KeyError, which the claim does not contradict — the raised flag is true);
and a key absent across the entire ancestor chain yields a lookup error
(none).  The Nodup hypothesis reflects that Python dict keys are unique. -/
theorem c5_context_fallthrough :
    (∀ (data : List (String × String)) (p : Ctx) (k : String),
      dictLookup data k = none → ctxGet (.node data p) k = ctxGet p k)
    ∧ (∀ (data pdata : List (String × String)) (k v : String),
        dictLookup data k = none → dictLookup pdata k = some v →
        (pdata.map Prod.fst).Nodup →
        ctxDel (.node data (.root pdata)) k
          = (.node data (.root (dictRemove pdata k)), true)
        ∧ dictLookup (dictRemove pdata k) k = none)
    ∧ (∀ (c : Ctx) (k : String), k ∉ ctxKeys c → ctxGet c k = none) := by
  refine ⟨?_, ?_, ?_⟩
  · intro data p k h
    simp [ctxGet, h]
  · intro data pdata k v hl hp hnd
    have htruthy : ctxTruthy (.root pdata) = true := by
      have hk : k ∈ pdata.map Prod.fst := dictLookup_mem _ _ _ hp
      cases pdata with
      | nil => simp at hk
      | cons a b => rfl
    refine ⟨?_, dictLookup_remove_self pdata k hnd⟩
    simp [ctxDel, hl, hp, htruthy]
  · intro c
    induction c with
    | root d =>
      intro k h
      exact dictLookup_not_mem d k (by simpa [ctxKeys] using h)
    | node d p ih =>
      intro k h
      simp only [ctxKeys, List.mem_append] at h
      push_neg at h
      have h1 : dictLookup d k = none := dictLookup_not_mem d k (by simpa using h.1)
      simp [ctxGet, h1, ih k h.2]

/-- Witness for C5: a child containing y linked to a parent containing x
resolves both; deleting x through the child removes it from the parent;
a key absent everywhere looks up to an error. -/
theorem c5_context_fallthrough_witness :
    ctxGet (.node [("y", "2")] (.root [("x", "1")])) "x" = some "1"
    ∧ ctxGet (.node [("y", "2")] (.root [("x", "1")])) "y" = some "2"
    ∧ ctxDel (.node [("y", "2")] (.root [("x", "1")])) "x"
      = (.node [("y", "2")] (.root []), true)
    ∧ ctxGet (.node [("y", "2")] (.root [("x", "1")])) "z" = none := by
  have h := c5_context_fallthrough
  refine ⟨?_, by decide, ?_, ?_⟩
  · have h1 := h.1 [("y", "2")] (.root [("x", "1")]) "x" (by decide)
    exact h1.trans (by decide)
  · have h2 := (h.2.1 [("y", "2")] [("x", "1")] "x" "1"
      (by decide) (by decide) (by decide)).1
    exact h2.trans (by decide)
  · exact h.2.2 (.node [("y", "2")] (.root [("x", "1")])) "z" (by decide)

/-- C6: a value that is neither None nor a component nor a string nor an
iterable reaches the fallthrough of the render dispatcher, which accesses
the missing render attribute and so fails with an AttributeError carrying
the unsupported value's type name (for an int: the access int.render). -/
theorem c6_unsupported_render_error (octx : Option Ctx) (tn : String) :
    renderR octx (RValue.vother tn)
      = Except.error (PyErr.attributeError tn "render") := rfl

/-- C7 (code bug): EventHandler.__init__ performs no validation.  With a
rule supplied and no method, the attribute key "hx-None" is silently
stored carrying the rule (the f-string interpolates Python None); with an
unrecognized method, its name is interpolated into the key unchecked.  No
error is raised, contradicting the claimed validation error. -/
theorem c7_no_validation_failing_input :
    eventHandlerInit (some "/api/data") none none none none none none none none
      = [("hx-None", PyVal.str "/api/data")]
    ∧ eventHandlerInit (some "/x") (some "frobnicate")
        none none none none none none none
      = [("hx-frobnicate", PyVal.str "/x")] :=
  ⟨by decide, by decide⟩

/-- C8: on an attribute map without a class entry, getting class returns
and persists an empty list; setting class to a string stores the
whitespace-split, duplicate-free token list; and setting class to
"btn primary" then appending "active" to the retrieved list yields a class
value whose rendered tokens are exactly btn, primary, active — a
permutation, so no order is asserted — with no duplicates and none
missing. -/
theorem c8_class_normalization (m : Attrs) (hm : attrLookup m "class" = none) :
    attrGetItem m "class" = (some (.list []), attrSet m "class" (.list []))
    ∧ (∀ s : String,
        attrLookup (attrSetItem m "class" (.str s)) "class"
          = some (.list (dedupAux [] (splitWS s)))
        ∧ (dedupAux [] (splitWS s)).Nodup)
    ∧ (∃ l : List String,
        attrLookup (classAppend (attrSetItem m "class" (.str "btn primary"))
            "active") "class" = some (.list l)
        ∧ l.Perm ["btn", "primary", "active"]
        ∧ splitWS (renderVal none (.list l)) = l) := by
  have hcon : attrContains m "class" = false := by simp [attrContains, hm]
  refine ⟨?_, ?_, ?_⟩
  · simp [attrGetItem, hcon]
  · intro s
    refine ⟨?_, dedupAux_nodup _ _⟩
    rw [attrSetItem, if_pos rfl]
    exact attrLookup_set_self _ _ _
  · refine ⟨["btn", "primary", "active"], ?_, by decide, by decide⟩
    have hv : validateClass (.str "btn primary") = ["btn", "primary"] := by decide
    have h1 : attrSetItem m "class" (.str "btn primary")
        = attrSet m "class" (.list ["btn", "primary"]) := by
      rw [attrSetItem, if_pos rfl, hv]
    have h2 : attrLookup (attrSet m "class" (.list ["btn", "primary"])) "class"
        = some (.list ["btn", "primary"]) := attrLookup_set_self _ _ _
    rw [h1]
    have h3 := attrLookup_classAppend
      (attrSet m "class" (.list ["btn", "primary"])) "active"
      ["btn", "primary"] h2
    simpa using h3

/-- Witness for C8: the empty attribute map. -/
theorem c8_class_normalization_witness :
    attrGetItem [] "class" = (some (PyVal.list []), [("class", PyVal.list [])])
    ∧ attrLookup (attrSetItem [] "class" (PyVal.str "btn primary")) "class"
      = some (PyVal.list ["btn", "primary"]) := by
  have h := c8_class_normalization [] (by decide)
  refine ⟨h.1.trans (by decide), ?_⟩
  exact ((h.2.1 "btn primary").1).trans (by decide)

/-- C9 counterexample: attribute values are template-rendered before
escaping, so for a value containing both an angle bracket and a template
hole the rendered pair escapes only what survives substitution, and
HTML-decoding the rendered value does not recover the original value. -/
theorem c9_counterexample :
    attrsToString none [("a", PyVal.str (String.mk
        ['\x3c', '\x7b', '\x7b', ' ', 'x', ' ', '\x7d', '\x7d']))]
      = "a=\x22&lt;\x22"
    ∧ unescape "&lt;" = "<"
    ∧ ("<" : String)
      ≠ String.mk ['\x3c', '\x7b', '\x7b', ' ', 'x', ' ', '\x7d', '\x7d'] := by
  refine ⟨by decide, ?_, by decide⟩
  have h1 : escape "<" = "&lt;" := by decide
  rw [← h1]
  exact unescape_escape "<"

/-- C9 (amended): for attribute maps whose values are strings free of
template syntax (no opening brace), serialization emits one
key="escaped-value" pair per key under any ambient context; every escaped
value is in properly escaped form (no raw angle brackets or quotes, every
ampersand starting an entity), and HTML-decoding an escaped value recovers
the original string. -/
theorem c9_escape_roundtrip_amended (octx : Option Ctx) (m : Attrs)
    (hstr : ∀ kv ∈ m, ∃ s, kv.2 = PyVal.str s ∧ lbChar ∉ s.data) :
    attrsToString octx m
      = joinSpace (m.map (fun kv =>
          escape kv.1 ++ "=\x22" ++ escape (pyValStr kv.2) ++ "\x22"))
    ∧ ∀ s : String, escapedForm (escape s).data = true ∧ unescape (escape s) = s := by
  constructor
  · rw [attrsToString]
    have hmap : ∀ kv ∈ m, attrPairStr octx kv
        = escape kv.1 ++ "=\x22" ++ escape (pyValStr kv.2) ++ "\x22" := by
      intro kv hkv
      obtain ⟨s, hs, hlb⟩ := hstr kv hkv
      rw [attrPairStr, hs]
      rw [show renderVal octx (PyVal.str s) = templateRender (nsOf octx) s from rfl]
      rw [templateRender_nolb (nsOf octx) s hlb]
      rfl
    rw [List.map_congr_left hmap]
  · intro s
    refine ⟨?_, unescape_escape s⟩
    show escapedForm (String.mk (escapeList s.data)).data = true
    exact escapedForm_escapeList s.data

/-- Witness for the amended C9: one attribute holding a value with all
four special characters. -/
theorem c9_escape_roundtrip_amended_witness :
    attrsToString none [("a", PyVal.str "x<y&z\x22w>")]
      = joinSpace ([("a", PyVal.str "x<y&z\x22w>")].map (fun kv =>
          escape kv.1 ++ "=\x22" ++ escape (pyValStr kv.2) ++ "\x22"))
    ∧ escapedForm (escape "x<y&z\x22w>").data = true
    ∧ unescape (escape "x<y&z\x22w>") = "x<y&z\x22w>" := by
  have h := c9_escape_roundtrip_amended none [("a", PyVal.str "x<y&z\x22w>")]
    (by
      intro kv hkv
      rw [List.mem_singleton] at hkv
      subst hkv
      exact ⟨"x<y&z\x22w>", rfl, by decide⟩)
  exact ⟨h.1, (h.2 "x<y&z\x22w>").1, (h.2 "x<y&z\x22w>").2⟩

/-- C10: for an element constructed without an explicit id argument and
whose attribute map has no id entry, the element's attributes still have
no id entry after construction (the component uuid is never written into
the map), and appending a handler that has a trigger makes the validate
rewrite read the missing id attribute and raise KeyError to the caller. -/
theorem c10_missing_id_keyerror (attrs handler : Attrs) (hyper : Option String)
    (tv : PyVal)
    (hid : attrLookup attrs "id" = none)
    (ht : attrLookup handler "hx-trigger" = some tv) :
    attrLookup (elementInitAttrs attrs none hyper) "id" = none
    ∧ ehlValidate (elementInitAttrs attrs none hyper) handler
      = .error (.keyError "id") := by
  have h1 : attrLookup (elementInitAttrs attrs none hyper) "id" = none := by
    cases hyper with
    | none => simpa [elementInitAttrs] using hid
    | some hs =>
      by_cases hne : hs = ""
      · simpa [elementInitAttrs, hne] using hid
      · simp only [elementInitAttrs]
        rw [if_pos hne]
        rw [attrSetItem, if_neg (by decide)]
        rw [attrLookup_set_ne _ _ _ _ (by decide)]
        exact hid
  refine ⟨h1, ?_⟩
  simp [ehlValidate, ht, h1]

/-- Witness for C10: an element built with a class attribute, no id, and a
hyperscript argument; a click-triggered handler fails with KeyError. -/
theorem c10_missing_id_keyerror_witness :
    attrLookup (elementInitAttrs [("class", PyVal.list ["btn"])] none
        (some "on click toggle .active")) "id" = none
    ∧ ehlValidate (elementInitAttrs [("class", PyVal.list ["btn"])] none
        (some "on click toggle .active")) [("hx-trigger", PyVal.str "click")]
      = Except.error (PyErr.keyError "id") :=
  c10_missing_id_keyerror [("class", PyVal.list ["btn"])]
    [("hx-trigger", PyVal.str "click")] (some "on click toggle .active")
    (PyVal.str "click") (by decide) (by decide)

end Viol
